import Mathlib

/-!
Verification development for the player-history tracking and anomaly-blurb
generation core of the `daily_scrape` repository (`scripts/scrape.py`).

The embedding below models:
  * the per-player stat line produced by the scraper (`PlayerStat`),
  * the season ledger `player_log.json` as an insertion-ordered association
    list (`Ledger`), mirroring a Python dict,
  * `update_player_log`, `generate_blurbs` (with blurbs abstracted to the
    structured data each formatted string cites),
  * the numeric parsers `_int` and `_parse_minutes` together with models of
    Python's `int(str)` / `float(str)` on decimal literals,
  * the JSON document shape written by `save_player_log` and read back by
    `load_player_log`.
-/

set_option autoImplicit false

namespace DailyScrape

/-- One player's stat line for one game, as produced by `get_players`:
fields `id`, `name`, `team`, `starter`, `dnp`, `min`, `pts`, `reb`, `ast`.
Minutes are modelled as exact rationals. -/
structure PlayerStat where
  id : String
  name : String
  team : String
  starter : Bool
  dnp : Bool
  min : ℚ
  pts : Int
  reb : Int
  ast : Int
deriving Repr, DecidableEq

/-- One ledger entry of `player_log.json`:
`{ "name": str, "team": str, "games": int, "starts": int,
   "total_min": float, "dates_started": [...] }`. -/
structure LedgerEntry where
  name : String
  team : String
  games : Nat
  starts : Nat
  total_min : ℚ
  dates_started : List String
deriving Repr, DecidableEq

/-- The player ledger: a Python dict keyed by player id, modelled as an
insertion-ordered association list. -/
abbrev Ledger := List (String × LedgerEntry)

/-- Dict lookup `plog[pid]` / `pid in plog`: first binding of the key. -/
def lookupL : Ledger → String → Option LedgerEntry
  | [], _ => none
  | (k, v) :: rest, pid => if k = pid then some v else lookupL rest pid

/-- Dict assignment on an existing key keeps its position (Python dict
semantics); absent keys are not inserted by `setL` (that case is handled by
appending in `updateOne`). -/
def setL : Ledger → String → LedgerEntry → Ledger
  | [], _, _ => []
  | (k, v) :: rest, pid, e => if k = pid then (k, e) :: rest else (k, v) :: setL rest pid e

/-- The fresh entry created by `update_player_log` when `pid not in plog`:
all counters zero, empty `dates_started`. -/
def freshEntry (p : PlayerStat) : LedgerEntry :=
  { name := p.name, team := p.team, games := 0, starts := 0,
    total_min := 0, dates_started := [] }

/-- The mutation `update_player_log` performs on one (existing or fresh)
entry for one counted appearance: overwrite `name`/`team`, bump `games`,
add minutes, and on a start bump `starts` and append the date. -/
def applyGame (e : LedgerEntry) (p : PlayerStat) (date_str : String) : LedgerEntry :=
  let e1 : LedgerEntry :=
    { e with name := p.name, team := p.team,
             games := e.games + 1, total_min := e.total_min + p.min }
  if p.starter then
    { e1 with starts := e1.starts + 1, dates_started := e1.dates_started ++ [date_str] }
  else e1

/-- The body of `update_player_log`'s loop for a single player `p`:
skip if `not pid or p.get("dnp")`, otherwise create-if-absent and mutate. -/
def updateOne (plog : Ledger) (p : PlayerStat) (date_str : String) : Ledger :=
  if p.id = "" ∨ p.dnp = true then plog
  else
    match lookupL plog p.id with
    | some e => setL plog p.id (applyGame e p date_str)
    | none => plog ++ [(p.id, applyGame (freshEntry p) p date_str)]

/-- `update_player_log(plog, players, date_str)`: fold the per-player body
over the list, in list order. -/
def update_player_log (plog : Ledger) (players : List PlayerStat) (date_str : String) : Ledger :=
  players.foldl (fun acc p => updateOne acc p date_str) plog

/-- The structured content of each blurb string `generate_blurbs` emits
(the emoji/format text is presentation; the constructor records which rule
fired and every stat the f-string cites). -/
inductive Blurb where
  | firstStart (name team : String) (minutes : ℚ) (pts : Int)
  | nthStart (name team : String) (n : Nat) (pts reb : Int)
  | minutesSurge (name team : String) (minutes prevAvg : ℚ) (pts reb ast : Int)
deriving Repr, DecidableEq

/-- Rule A blurbs are the new-starter ones (🆕 first start / 📋 Nth start). -/
def Blurb.isRuleA : Blurb → Bool
  | .firstStart _ _ _ _ => true
  | .nthStart _ _ _ _ _ => true
  | .minutesSurge _ _ _ _ _ _ _ => false

/-- Rule B blurbs are the minutes-surge ones (⬆️). -/
def Blurb.isRuleB : Blurb → Bool
  | .minutesSurge _ _ _ _ _ _ _ => true
  | _ => false

/-- The body of `generate_blurbs`'s loop for one player `p` against the
(post-update) ledger: `entry = plog.get(pid, {})`, `games_before =
entry.get("games", 1) - 1`, `starts = entry.get("starts", 0)`, then the
Rule A `if` and the Rule B `elif` exactly as in the source. -/
def blurbsFor (plog : Ledger) (p : PlayerStat) : List Blurb :=
  if p.id = "" ∨ p.dnp = true then []
  else
    let entry := lookupL plog p.id
    let games : Nat := match entry with | some e => e.games | none => 1
    let total_min : ℚ := match entry with | some e => e.total_min | none => 0
    let starts : Nat := match entry with | some e => e.starts | none => 0
    let games_before : Int := (games : Int) - 1
    let minutes : ℚ := p.min
    if p.starter = true ∧ starts ≤ 5 ∧ 5 ≤ games_before then
      if starts = 1 then [.firstStart p.name p.team minutes p.pts]
      else if starts ≤ 5 then [.nthStart p.name p.team starts p.pts p.reb]
      else []
    else if 10 ≤ games_before ∧ 0 < minutes then
      let prev_avg : ℚ := (total_min - minutes) / ((max games_before 1 : Int) : ℚ)
      if 0 < prev_avg ∧ prev_avg * (3 / 2) ≤ minutes ∧ 10 ≤ minutes - prev_avg then
        [.minutesSurge p.name p.team minutes prev_avg p.pts p.reb p.ast]
      else []
    else []

/-- `generate_blurbs(plog, all_players, date_str)`: accumulate the per-player
blurbs in player-list order (`date_str` is unused by the source body). -/
def generate_blurbs (plog : Ledger) (players : List PlayerStat) (_date_str : String) : List Blurb :=
  players.foldl (fun blurbs p => blurbs ++ blurbsFor plog p) []

/-! ### Numeric parsers: `_int` and `_parse_minutes` -/

/-- Value of a digit string, most significant first (how Python reads a run
of decimal digits). -/
def natOfDigits (cs : List Char) : Nat :=
  cs.foldl (fun a c => a * 10 + (c.toNat - 48)) 0

/-- A nonempty all-digit character run parses to its value; anything else
fails. -/
def digitsNat? (cs : List Char) : Option Nat :=
  if cs ≠ [] ∧ cs.all Char.isDigit = true then some (natOfDigits cs) else none

/-- Python `str.strip()` / the whitespace stripping `int`/`float` perform. -/
def trimChars (cs : List Char) : List Char :=
  ((cs.dropWhile Char.isWhitespace).reverse.dropWhile Char.isWhitespace).reverse

/-- Model of Python `int(s)` on plain decimal string literals: optional
whitespace, optional sign, then a nonempty run of ASCII digits; everything
outside this fragment is `none`. Python's `int` additionally accepts
underscore separators (`"1_0"`) and non-ASCII decimal digits; those inputs
are outside the modelled fragment and land in `none`, which the caller
coerces to `0` — conservative for the zero-on-failure claims, and every
value the model does accept agrees with `int`. -/
def pyIntChars (cs : List Char) : Option Int :=
  match trimChars cs with
  | [] => none
  | c :: rest =>
    if c = '-' then
      match digitsNat? rest with
      | some n => some (-(n : Int))
      | none => none
    else if c = '+' then
      match digitsNat? rest with
      | some n => some ((n : Int))
      | none => none
    else
      match digitsNat? (c :: rest) with
      | some n => some ((n : Int))
      | none => none

/-- `str.split(sep)` for a one-character separator; always nonempty, and
`cs` contains the separator iff the result has at least two parts. -/
def splitOnChar (c : Char) : List Char → List (List Char)
  | [] => [[]]
  | x :: xs =>
    match splitOnChar c xs with
    | [] => [[x]]
    | g :: gs => if x = c then [] :: g :: gs else (x :: g) :: gs

/-- Unsigned decimal literal for `float`: `123`, `123.`, `.5` or `123.45`
(all digits, at least one digit overall). -/
def pyUnsignedFloat? (cs : List Char) : Option ℚ :=
  match splitOnChar '.' cs with
  | [a] =>
    match digitsNat? a with
    | some n => some ((n : ℚ))
    | none => none
  | [a, b] =>
    if (a ≠ [] ∨ b ≠ []) ∧ a.all Char.isDigit = true ∧ b.all Char.isDigit = true then
      some ((natOfDigits a : ℚ) + (natOfDigits b : ℚ) / ((10 : ℚ) ^ b.length))
    else none
  | _ => none

/-- Model of Python `float(s)` on plain finite decimal literals: optional
whitespace, optional sign, then an unsigned decimal literal; everything
outside this fragment is `none`. Python's `float` additionally accepts
exponent literals (`"1e5"`), underscore separators, non-ASCII digits, and
the special literals `nan`/`inf`/`infinity`; none of those have a place in
a `ℚ`-valued model (`nan`/`inf` are not rationals), so they are outside the
modelled fragment and land in `none`, which the caller coerces to `0`.
Every value the model does accept agrees with `float`; statements that
depend on the special literals must exclude them explicitly (see
`isNanChars`). -/
def pyFloatChars (cs : List Char) : Option ℚ :=
  match trimChars cs with
  | [] => none
  | c :: rest =>
    if c = '-' then
      match pyUnsignedFloat? rest with
      | some q => some (-q)
      | none => none
    else if c = '+' then pyUnsignedFloat? rest
    else pyUnsignedFloat? (c :: rest)

/-- The NaN literals Python `float` accepts: optional whitespace, optional
sign, then `nan` in any letter case. On these inputs the real program's
`float(val)` returns NaN — the one `float` result that is not
non-negative — while the `ℚ`-valued model has no NaN and coerces them to
`0`, so nonnegativity statements must exclude them. -/
def isNanChars (cs : List Char) : Bool :=
  match trimChars cs with
  | [] => false
  | c :: rest =>
    if c = '-' ∨ c = '+' then rest.map Char.toLower = ['n', 'a', 'n']
    else (c :: rest).map Char.toLower = ['n', 'a', 'n']

/-- `_int(val)`: `int(val)` with every failure (including `None`) coerced
to `0`. -/
def _int (val : Option String) : Int :=
  match val with
  | none => 0
  | some s => (pyIntChars s.toList).getD 0

/-- `_parse_minutes(val)`: `None`/empty/`"DNP"`/`"--"` give `0`; a string
containing `":"` is split and read as `int(parts[0]) + int(parts[1]) / 60`;
otherwise `float(val)`; any parse failure gives `0`. -/
def _parse_minutes (val : Option String) : ℚ :=
  match val with
  | none => 0
  | some s =>
    if s = "" ∨ s = "DNP" ∨ s = "--" then 0
    else
      match splitOnChar ':' s.toList with
      | p0 :: p1 :: _ =>
        (match pyIntChars p0, pyIntChars p1 with
         | some m, some k => (m : ℚ) + (k : ℚ) / 60
         | _, _ => 0)
      | _ => (pyFloatChars s.toList).getD 0

/-! ### Ledger persistence: `save_player_log` / `load_player_log` -/

/-- JSON values, as far as `player_log.json` needs them. Numbers are exact
rationals (covering both JSON ints and the decimal floats Python writes). -/
inductive Json where
  | str (s : String)
  | num (q : ℚ)
  | arr (elems : List Json)
  | obj (fields : List (String × Json))
deriving Repr

/-- Field lookup inside a JSON object (by name, order-insensitive). -/
def fieldLookup : List (String × Json) → String → Option Json
  | [], _ => none
  | (k, v) :: rest, key => if k = key then some v else fieldLookup rest key

/-- Read a JSON string. -/
def asStr? : Json → Option String
  | .str s => some s
  | _ => none

/-- Read a JSON number as a nonnegative integer (a Python `int` field). -/
def asNat? : Json → Option Nat
  | .num q => if q.den = 1 ∧ 0 ≤ q.num then some q.num.toNat else none
  | _ => none

/-- Read a JSON number (a Python numeric field). -/
def asRat? : Json → Option ℚ
  | .num q => some q
  | _ => none

/-- Decode a JSON array of strings. -/
def decodeStrings : List Json → Option (List String)
  | [] => some []
  | j :: js =>
    match asStr? j, decodeStrings js with
    | some s, some ss => some (s :: ss)
    | _, _ => none

/-- Serialize one ledger entry to the JSON object `json.dump` writes. -/
def encodeEntry (e : LedgerEntry) : Json :=
  .obj [("name", .str e.name), ("team", .str e.team),
        ("games", .num (e.games : ℚ)), ("starts", .num (e.starts : ℚ)),
        ("total_min", .num e.total_min),
        ("dates_started", .arr (e.dates_started.map Json.str))]

/-- Decode one ledger entry from its JSON object (fields found by name). -/
def decodeEntry : Json → Option LedgerEntry
  | .obj fields => do
    let name ← (fieldLookup fields "name").bind asStr?
    let team ← (fieldLookup fields "team").bind asStr?
    let games ← (fieldLookup fields "games").bind asNat?
    let starts ← (fieldLookup fields "starts").bind asNat?
    let total_min ← (fieldLookup fields "total_min").bind asRat?
    let datesJson ← fieldLookup fields "dates_started"
    let dates_started ←
      match datesJson with
      | .arr es => decodeStrings es
      | _ => none
    pure { name := name, team := team, games := games, starts := starts,
           total_min := total_min, dates_started := dates_started }
  | _ => none

/-- Decode the top-level object's bindings in order. -/
def decodeLedgerFields : List (String × Json) → Option Ledger
  | [] => some []
  | (k, v) :: rest =>
    match decodeEntry v, decodeLedgerFields rest with
    | some e, some l => some ((k, e) :: l)
    | _, _ => none

/-- `save_player_log(plog)`: the JSON document `json.dump(plog, f)` writes. -/
def save_player_log (plog : Ledger) : Json :=
  .obj (plog.map (fun kv => (kv.1, encodeEntry kv.2)))

/-- `load_player_log()`: the ledger `json.load` reconstructs from a
`player_log.json` document. -/
def load_player_log (doc : Json) : Option Ledger :=
  match doc with
  | .obj fields => decodeLedgerFields fields
  | _ => none

/-! ### Association-list lemmas -/

theorem lookupL_setL_self (l : Ledger) (k : String) (v e : LedgerEntry)
    (h : lookupL l k = some e) : lookupL (setL l k v) k = some v := by
  induction l with
  | nil => simp [lookupL] at h
  | cons kv rest ih =>
    obtain ⟨a, b⟩ := kv
    by_cases hak : a = k
    · simp [setL, lookupL, hak]
    · simp only [lookupL, if_neg hak] at h
      simp [setL, lookupL, hak, ih h]

theorem lookupL_setL_ne (l : Ledger) (k k' : String) (v : LedgerEntry)
    (h : k ≠ k') : lookupL (setL l k v) k' = lookupL l k' := by
  induction l with
  | nil => simp [setL]
  | cons kv rest ih =>
    obtain ⟨a, b⟩ := kv
    by_cases hak : a = k
    · subst hak
      simp [setL, lookupL, h, ih]
    · simp only [setL, if_neg hak]
      by_cases hak' : a = k'
      · simp [lookupL, hak']
      · simp [lookupL, hak', ih]

theorem lookupL_append_self (l : Ledger) (k : String) (v : LedgerEntry)
    (h : lookupL l k = none) : lookupL (l ++ [(k, v)]) k = some v := by
  induction l with
  | nil => simp [lookupL]
  | cons kv rest ih =>
    obtain ⟨a, b⟩ := kv
    by_cases hak : a = k
    · simp [lookupL, hak] at h
    · simp only [lookupL, if_neg hak] at h
      simp [lookupL, hak, ih h]

theorem lookupL_append_ne (l : Ledger) (k k' : String) (v : LedgerEntry)
    (h : k ≠ k') : lookupL (l ++ [(k, v)]) k' = lookupL l k' := by
  induction l with
  | nil => simp [lookupL, h]
  | cons kv rest ih =>
    obtain ⟨a, b⟩ := kv
    by_cases hak' : a = k'
    · simp [lookupL, hak']
    · simp [lookupL, hak', ih]

theorem mem_setL (l : Ledger) (k : String) (v : LedgerEntry) (x : String × LedgerEntry)
    (h : x ∈ setL l k v) : x ∈ l ∨ x = (k, v) := by
  induction l with
  | nil => simp [setL] at h
  | cons kv rest ih =>
    obtain ⟨a, b⟩ := kv
    by_cases hak : a = k
    · subst hak
      simp only [setL, if_pos rfl] at h
      rcases List.mem_cons.mp h with h1 | h1
      · right; exact h1
      · left; exact List.mem_cons_of_mem _ h1
    · simp only [setL, if_neg hak] at h
      rcases List.mem_cons.mp h with h1 | h1
      · left; exact h1 ▸ List.mem_cons_self _ _
      · rcases ih h1 with h2 | h2
        · left; exact List.mem_cons_of_mem _ h2
        · right; exact h2

theorem lookupL_mem (l : Ledger) (k : String) (e : LedgerEntry)
    (h : lookupL l k = some e) : (k, e) ∈ l := by
  induction l with
  | nil => simp [lookupL] at h
  | cons kv rest ih =>
    obtain ⟨a, b⟩ := kv
    simp only [lookupL] at h
    split at h
    next hak =>
      cases h
      subst hak
      exact List.mem_cons_self _ _
    next hak => exact List.mem_cons_of_mem _ (ih h)

/-! ### `update_player_log` lemmas -/

theorem update_cons (plog : Ledger) (p : PlayerStat) (ps : List PlayerStat) (d : String) :
    update_player_log plog (p :: ps) d = update_player_log (updateOne plog p d) ps d := rfl

theorem update_single (plog : Ledger) (p : PlayerStat) (d : String) :
    update_player_log plog [p] d = updateOne plog p d := rfl

theorem updateOne_skip (plog : Ledger) (p : PlayerStat) (d : String)
    (h : p.id = "" ∨ p.dnp = true) : updateOne plog p d = plog := by
  unfold updateOne
  exact if_pos h

theorem applyGame_fields (e : LedgerEntry) (p : PlayerStat) (d : String) :
    (applyGame e p d).name = p.name ∧ (applyGame e p d).team = p.team ∧
    (applyGame e p d).games = e.games + 1 ∧
    (applyGame e p d).total_min = e.total_min + p.min ∧
    (applyGame e p d).starts = e.starts + (if p.starter then 1 else 0) ∧
    (applyGame e p d).dates_started =
      e.dates_started ++ (if p.starter then [d] else []) := by
  unfold applyGame
  by_cases h : p.starter <;> simp [h]

theorem updateOne_lookup_self (plog : Ledger) (p : PlayerStat) (d : String)
    (hid : p.id ≠ "") (hdnp : p.dnp = false) :
    lookupL (updateOne plog p d) p.id =
      some (applyGame ((lookupL plog p.id).getD (freshEntry p)) p d) := by
  unfold updateOne
  rw [if_neg (by simp [hid, hdnp])]
  cases hl : lookupL plog p.id with
  | none => simp [lookupL_append_self plog p.id _ hl]
  | some e => simp [lookupL_setL_self plog p.id _ e hl]

theorem updateOne_lookup_ne (plog : Ledger) (p : PlayerStat) (d : String) (k : String)
    (h : p.id ≠ k) : lookupL (updateOne plog p d) k = lookupL plog k := by
  unfold updateOne
  by_cases hskip : p.id = "" ∨ p.dnp = true
  · rw [if_pos hskip]
  · rw [if_neg hskip]
    cases hl : lookupL plog p.id with
    | none => simp [lookupL_append_ne plog p.id k _ h]
    | some e => simp [lookupL_setL_ne plog p.id k _ h]

/-- Preservation of a per-entry predicate by a single loop step, provided
the predicate survives `applyGame` and holds of a processed fresh entry. -/
theorem updateOne_entry_pred (P : LedgerEntry → Prop)
    (hstep : ∀ e p d, P e → P (applyGame e p d))
    (hfresh : ∀ p, P (freshEntry p))
    (plog : Ledger) (p : PlayerStat) (d : String)
    (hinv : ∀ kv ∈ plog, P kv.2) :
    ∀ kv ∈ updateOne plog p d, P kv.2 := by
  intro kv hkv
  unfold updateOne at hkv
  by_cases hskip : p.id = "" ∨ p.dnp = true
  · rw [if_pos hskip] at hkv
    exact hinv kv hkv
  · rw [if_neg hskip] at hkv
    cases hl : lookupL plog p.id with
    | none =>
      rw [hl] at hkv
      rcases List.mem_append.mp hkv with h1 | h1
      · exact hinv kv h1
      · simp only [List.mem_singleton] at h1
        subst h1
        exact hstep _ p d (hfresh p)
    | some e =>
      rw [hl] at hkv
      rcases mem_setL plog p.id _ kv hkv with h1 | h1
      · exact hinv kv h1
      · subst h1
        exact hstep e p d (hinv (p.id, e) (lookupL_mem plog p.id e hl))

/-- Preservation of a per-entry predicate by the whole update loop. -/
theorem update_entry_pred (P : LedgerEntry → Prop)
    (hstep : ∀ e p d, P e → P (applyGame e p d))
    (hfresh : ∀ p, P (freshEntry p)) (d : String) :
    ∀ (players : List PlayerStat) (plog : Ledger),
      (∀ kv ∈ plog, P kv.2) → ∀ kv ∈ update_player_log plog players d, P kv.2 := by
  intro players
  induction players with
  | nil => intro plog hinv kv hkv; exact hinv kv hkv
  | cons p ps ih =>
    intro plog hinv kv hkv
    rw [update_cons] at hkv
    exact ih (updateOne plog p d) (updateOne_entry_pred P hstep hfresh plog p d hinv) kv hkv

/-- C1: for every ledger, date string, and stat line with non-empty id and
`dnp = false`, one ledger-update call leaves at that id exactly the entry
obtained from the prior entry (or, when the id was absent, a fresh entry
with `games = 0`, `starts = 0`, `total_min = 0`, empty `dates_started`) by
overwriting `name` and `team` with the game's values, incrementing `games`,
adding the minutes to `total_min`, and — exactly when `starter` is true —
incrementing `starts` and appending the date to `dates_started`; `starts`
and `dates_started` are unchanged when `starter` is false. -/
theorem update_single_player_effect (plog : Ledger) (date_str : String) (p : PlayerStat)
    (hid : p.id ≠ "") (hdnp : p.dnp = false) :
    (freshEntry p).games = 0 ∧ (freshEntry p).starts = 0 ∧
    (freshEntry p).total_min = 0 ∧ (freshEntry p).dates_started = [] ∧
    ∃ e', lookupL (update_player_log plog [p] date_str) p.id = some e' ∧
      e'.name = p.name ∧ e'.team = p.team ∧
      e'.games = ((lookupL plog p.id).getD (freshEntry p)).games + 1 ∧
      e'.total_min = ((lookupL plog p.id).getD (freshEntry p)).total_min + p.min ∧
      (p.starter = true →
        e'.starts = ((lookupL plog p.id).getD (freshEntry p)).starts + 1 ∧
        e'.dates_started =
          ((lookupL plog p.id).getD (freshEntry p)).dates_started ++ [date_str]) ∧
      (p.starter = false →
        e'.starts = ((lookupL plog p.id).getD (freshEntry p)).starts ∧
        e'.dates_started = ((lookupL plog p.id).getD (freshEntry p)).dates_started) := by
  refine ⟨rfl, rfl, rfl, rfl,
    applyGame ((lookupL plog p.id).getD (freshEntry p)) p date_str, ?_, ?_, ?_, ?_, ?_, ?_, ?_⟩
  · rw [update_single]
    exact updateOne_lookup_self plog p date_str hid hdnp
  · exact (applyGame_fields _ p date_str).1
  · exact (applyGame_fields _ p date_str).2.1
  · exact (applyGame_fields _ p date_str).2.2.1
  · exact (applyGame_fields _ p date_str).2.2.2.1
  · intro hs
    refine ⟨?_, ?_⟩
    · rw [(applyGame_fields _ p date_str).2.2.2.2.1, hs]; simp
    · rw [(applyGame_fields _ p date_str).2.2.2.2.2, hs]; simp
  · intro hs
    refine ⟨?_, ?_⟩
    · rw [(applyGame_fields _ p date_str).2.2.2.2.1, hs]; simp
    · rw [(applyGame_fields _ p date_str).2.2.2.2.2, hs]; simp

/-- C4: the per-entry invariant `starts ≤ games` is preserved by every
`update_player_log` call: a fresh entry starts at `0 ≤ 0`, and `starts` is
only incremented in a step that also increments `games`. -/
theorem starts_le_games_preserved (plog : Ledger) (players : List PlayerStat) (date_str : String)
    (hinv : ∀ kv ∈ plog, kv.2.starts ≤ kv.2.games) :
    ∀ kv ∈ update_player_log plog players date_str, kv.2.starts ≤ kv.2.games :=
  update_entry_pred (fun e => e.starts ≤ e.games)
    (fun e p d he => by
      obtain ⟨_, _, h3, _, h5, _⟩ := applyGame_fields e p d
      rw [h3, h5]
      by_cases hs : p.starter <;> simp [hs] <;> omega)
    (fun p => by simp [freshEntry]) date_str players plog hinv

/-- C7: the implicit per-entry invariant `starts = length dates_started` is
preserved by every `update_player_log` call: fresh entries have `starts = 0`
with empty `dates_started`, and the only path incrementing `starts` appends
exactly one date. -/
theorem starts_eq_dates_length_preserved (plog : Ledger) (players : List PlayerStat)
    (date_str : String)
    (hinv : ∀ kv ∈ plog, kv.2.starts = kv.2.dates_started.length) :
    ∀ kv ∈ update_player_log plog players date_str,
      kv.2.starts = kv.2.dates_started.length :=
  update_entry_pred (fun e => e.starts = e.dates_started.length)
    (fun e p d he => by
      obtain ⟨_, _, _, _, h5, h6⟩ := applyGame_fields e p d
      rw [h5, h6]
      by_cases hs : p.starter <;> simp [hs, he])
    (fun p => by simp [freshEntry]) date_str players plog hinv

/-- C6: `update_player_log` leaves the binding of any key `k` untouched
(and creates none) unless some listed player with non-empty id and
`dnp = false` has that id: DNP appearances, empty-id appearances and
unlisted ids modify nothing. -/
theorem update_frame (plog : Ledger) (players : List PlayerStat) (date_str : String)
    (k : String)
    (h : ∀ p ∈ players, p.id ≠ "" → p.dnp = false → p.id ≠ k) :
    lookupL (update_player_log plog players date_str) k = lookupL plog k := by
  induction players generalizing plog with
  | nil => rfl
  | cons p ps ih =>
    rw [update_cons,
      ih (updateOne plog p date_str) (fun q hq => h q (List.mem_cons_of_mem _ hq))]
    by_cases hskip : p.id = "" ∨ p.dnp = true
    · rw [updateOne_skip plog p date_str hskip]
    · push_neg at hskip
      exact updateOne_lookup_ne plog p date_str k
        (h p (List.mem_cons_self _ _) hskip.1 (Bool.not_eq_true _ ▸ hskip.2))

/-! ### Blurb-generation lemmas -/

/-- Evaluation of the per-player blurb body when the player's ledger entry
exists (as it always does right after the ledger update for that player). -/
theorem blurbsFor_of_lookup (plog : Ledger) (p : PlayerStat) (e : LedgerEntry)
    (hid : p.id ≠ "") (hdnp : p.dnp = false) (hl : lookupL plog p.id = some e) :
    blurbsFor plog p =
      if p.starter = true ∧ e.starts ≤ 5 ∧ 5 ≤ (e.games : Int) - 1 then
        if e.starts = 1 then [Blurb.firstStart p.name p.team p.min p.pts]
        else if e.starts ≤ 5 then [Blurb.nthStart p.name p.team e.starts p.pts p.reb]
        else []
      else if 10 ≤ (e.games : Int) - 1 ∧ 0 < p.min then
        if 0 < (e.total_min - p.min) / ((max ((e.games : Int) - 1) 1 : Int) : ℚ) ∧
            ((e.total_min - p.min) / ((max ((e.games : Int) - 1) 1 : Int) : ℚ)) * (3 / 2)
              ≤ p.min ∧
            10 ≤ p.min - (e.total_min - p.min) / ((max ((e.games : Int) - 1) 1 : Int) : ℚ) then
          [Blurb.minutesSurge p.name p.team p.min
            ((e.total_min - p.min) / ((max ((e.games : Int) - 1) 1 : Int) : ℚ))
            p.pts p.reb p.ast]
        else []
      else [] := by
  unfold blurbsFor
  rw [if_neg (by simp [hid, hdnp]), hl]

/-- C2: for a counted stat line `p`, evaluated right after that game's
ledger update (so `e'` is the post-update entry), a Rule A blurb is emitted
iff `p` started this game and `gamesBefore = e'.games − 1 ≥ 5` and
`e'.starts ≤ 5`; with `e'.starts = 1` the blurb is the first-start form
(citing minutes and points), with `2 ≤ e'.starts ≤ 5` it is the ordinal
Nth-start form (citing points and rebounds); and with `gamesBefore = 4`
nothing at all is emitted. -/
theorem ruleA_characterization (plog : Ledger) (date_str : String) (p : PlayerStat)
    (e' : LedgerEntry) (hid : p.id ≠ "") (hdnp : p.dnp = false)
    (he' : lookupL (update_player_log plog [p] date_str) p.id = some e') :
    ((∃ b ∈ blurbsFor (update_player_log plog [p] date_str) p, b.isRuleA = true) ↔
        (p.starter = true ∧ 5 ≤ (e'.games : Int) - 1 ∧ e'.starts ≤ 5))
    ∧ (p.starter = true → 5 ≤ (e'.games : Int) - 1 → e'.starts = 1 →
        blurbsFor (update_player_log plog [p] date_str) p =
          [Blurb.firstStart p.name p.team p.min p.pts])
    ∧ (p.starter = true → 5 ≤ (e'.games : Int) - 1 → 2 ≤ e'.starts → e'.starts ≤ 5 →
        blurbsFor (update_player_log plog [p] date_str) p =
          [Blurb.nthStart p.name p.team e'.starts p.pts p.reb])
    ∧ ((e'.games : Int) - 1 = 4 →
        blurbsFor (update_player_log plog [p] date_str) p = []) := by
  have hbs := blurbsFor_of_lookup (update_player_log plog [p] date_str) p e' hid hdnp he'
  refine ⟨⟨?_, ?_⟩, ?_, ?_, ?_⟩
  · rintro ⟨b, hb, hA⟩
    rw [hbs] at hb
    split_ifs at hb with h1 h2 h3
    · exact ⟨h1.1, h1.2.2, h1.2.1⟩
    · exact ⟨h1.1, h1.2.2, h1.2.1⟩
    · simp at hb
    · simp only [List.mem_singleton] at hb
      subst hb
      simp [Blurb.isRuleA] at hA
    · simp at hb
    · simp at hb
  · rintro ⟨hs, hg, hst⟩
    rw [hbs, if_pos ⟨hs, hst, hg⟩]
    by_cases h1 : e'.starts = 1
    · rw [if_pos h1]
      exact ⟨_, List.mem_singleton_self _, rfl⟩
    · rw [if_neg h1, if_pos hst]
      exact ⟨_, List.mem_singleton_self _, rfl⟩
  · intro hs hg h1
    rw [hbs, if_pos ⟨hs, by omega, hg⟩, if_pos h1]
  · intro hs hg h2 h5
    rw [hbs, if_pos ⟨hs, h5, hg⟩, if_neg (by omega), if_pos h5]
  · intro hg4
    rw [hbs, if_neg (by rintro ⟨-, -, h⟩; omega), if_neg (by rintro ⟨h, -⟩; omega)]

/-- C3: for a counted stat line `p`, evaluated right after that game's
ledger update (so `e'` is the post-update entry), a Rule B blurb is emitted
iff Rule A's condition does not hold and `gamesBefore = e'.games − 1 ≥ 10`
and `minutes > 0` and `priorAvg = (e'.total_min − minutes)/gamesBefore` is
positive and `minutes ≥ priorAvg × 1.5` and `minutes − priorAvg ≥ 10`. -/
theorem ruleB_characterization (plog : Ledger) (date_str : String) (p : PlayerStat)
    (e' : LedgerEntry) (hid : p.id ≠ "") (hdnp : p.dnp = false)
    (he' : lookupL (update_player_log plog [p] date_str) p.id = some e') :
    (∃ b ∈ blurbsFor (update_player_log plog [p] date_str) p, b.isRuleB = true) ↔
      (¬(p.starter = true ∧ e'.starts ≤ 5 ∧ 5 ≤ (e'.games : Int) - 1) ∧
       10 ≤ (e'.games : Int) - 1 ∧ 0 < p.min ∧
       0 < (e'.total_min - p.min) / (((e'.games : Int) - 1 : Int) : ℚ) ∧
       ((e'.total_min - p.min) / (((e'.games : Int) - 1 : Int) : ℚ)) * (3 / 2) ≤ p.min ∧
       10 ≤ p.min - (e'.total_min - p.min) / (((e'.games : Int) - 1 : Int) : ℚ)) := by
  have hbs := blurbsFor_of_lookup (update_player_log plog [p] date_str) p e' hid hdnp he'
  constructor
  · rintro ⟨b, hb, hB⟩
    rw [hbs] at hb
    split_ifs at hb with h1 h2 h3 h4 h5
    · simp only [List.mem_singleton] at hb
      subst hb
      simp [Blurb.isRuleB] at hB
    · simp only [List.mem_singleton] at hb
      subst hb
      simp [Blurb.isRuleB] at hB
    · simp at hb
    · have hmax : max ((e'.games : Int) - 1) 1 = (e'.games : Int) - 1 := by
        have := h4.1
        omega
      rw [hmax] at h5
      exact ⟨h1, h4.1, h4.2, h5.1, h5.2.1, h5.2.2⟩
    · simp at hb
    · simp at hb
  · rintro ⟨hnA, hgb, hmin, hpos, hrel, habs⟩
    have hmax : max ((e'.games : Int) - 1) 1 = (e'.games : Int) - 1 := by omega
    rw [hbs, if_neg hnA, if_pos ⟨hgb, hmin⟩, hmax, if_pos ⟨hpos, hrel, habs⟩]
    exact ⟨_, List.mem_singleton_self _, rfl⟩

/-- C5: for a single player's stat line in a single game, the detector
emits at most one blurb, and a Rule A blurb and a Rule B blurb never both
appear: the surge check is an `elif`, skipped whenever Rule A fires. -/
theorem blurb_mutual_exclusivity (plog : Ledger) (p : PlayerStat) :
    (blurbsFor plog p).length ≤ 1 ∧
    ∀ a ∈ blurbsFor plog p, a.isRuleA = true →
      ∀ b ∈ blurbsFor plog p, b.isRuleB = false := by
  by_cases hskip : p.id = "" ∨ p.dnp = true
  · rw [show blurbsFor plog p = [] from by unfold blurbsFor; rw [if_pos hskip]]
    simp
  · push_neg at hskip
    obtain ⟨hid, hdnp'⟩ := hskip
    have hdnp : p.dnp = false := Bool.not_eq_true _ ▸ hdnp'
    cases hl : lookupL plog p.id with
    | none =>
      have hnil : blurbsFor plog p = [] := by
        unfold blurbsFor
        rw [if_neg (by simp [hid, hdnp]), hl]
        norm_num
      rw [hnil]
      simp
    | some e =>
      rw [blurbsFor_of_lookup plog p e hid hdnp hl]
      split_ifs <;> simp [Blurb.isRuleA, Blurb.isRuleB]

/-! ### Parser lemmas -/

theorem mem_of_mem_dropWhile (q : Char → Bool) (l : List Char) (x : Char)
    (h : x ∈ l.dropWhile q) : x ∈ l := by
  induction l with
  | nil => simp at h
  | cons a as ih =>
    by_cases ha : q a
    · rw [List.dropWhile_cons_of_pos ha] at h
      exact List.mem_cons_of_mem _ (ih h)
    · rwa [List.dropWhile_cons_of_neg ha] at h

theorem mem_of_mem_trimChars (cs : List Char) (x : Char)
    (h : x ∈ trimChars cs) : x ∈ cs := by
  unfold trimChars at h
  rw [List.mem_reverse] at h
  have h2 := mem_of_mem_dropWhile _ _ _ h
  rw [List.mem_reverse] at h2
  exact mem_of_mem_dropWhile _ _ _ h2

theorem splitOnChar_ne_nil (c : Char) (cs : List Char) : splitOnChar c cs ≠ [] := by
  cases cs with
  | nil => simp [splitOnChar]
  | cons x xs =>
    unfold splitOnChar
    cases splitOnChar c xs with
    | nil => simp
    | cons g gs => by_cases hx : x = c <;> simp [hx]

theorem mem_of_mem_splitOnChar (c : Char) (cs part : List Char) (x : Char)
    (hpart : part ∈ splitOnChar c cs) (hx : x ∈ part) : x ∈ cs := by
  induction cs generalizing part with
  | nil =>
    simp only [splitOnChar, List.mem_singleton] at hpart
    subst hpart
    simp at hx
  | cons a as ih =>
    cases hsp : splitOnChar c as with
    | nil => exact absurd hsp (splitOnChar_ne_nil c as)
    | cons g gs =>
      simp only [splitOnChar, hsp] at hpart
      by_cases ha : a = c
      · rw [if_pos ha] at hpart
        rcases List.mem_cons.mp hpart with h1 | h1
        · subst h1; simp at hx
        · refine List.mem_cons_of_mem _ (ih part ?_ hx)
          rw [hsp]; exact h1
      · rw [if_neg ha] at hpart
        rcases List.mem_cons.mp hpart with h1 | h1
        · subst h1
          rcases List.mem_cons.mp hx with h2 | h2
          · exact h2 ▸ List.mem_cons_self _ _
          · refine List.mem_cons_of_mem _ (ih g ?_ h2)
            rw [hsp]; exact List.mem_cons_self _ _
        · refine List.mem_cons_of_mem _ (ih part ?_ hx)
          rw [hsp]; exact List.mem_cons_of_mem _ h1

theorem pyIntChars_nonneg (cs : List Char) (n : Int)
    (hminus : '-' ∉ cs) (h : pyIntChars cs = some n) : 0 ≤ n := by
  cases htr : trimChars cs with
  | nil => simp [pyIntChars, htr] at h
  | cons c rest =>
    simp only [pyIntChars, htr] at h
    have hc : c ≠ '-' := by
      intro hc
      refine hminus (mem_of_mem_trimChars cs '-' ?_)
      rw [htr, hc]
      exact List.mem_cons_self _ _
    rw [if_neg hc] at h
    by_cases hp : c = '+'
    · rw [if_pos hp] at h
      cases hd : digitsNat? rest with
      | none => rw [hd] at h; cases h
      | some m => rw [hd] at h; cases h; exact Int.natCast_nonneg m
    · rw [if_neg hp] at h
      cases hd : digitsNat? (c :: rest) with
      | none => rw [hd] at h; cases h
      | some m => rw [hd] at h; cases h; exact Int.natCast_nonneg m

theorem pyUnsignedFloat_nonneg (cs : List Char) (q : ℚ)
    (h : pyUnsignedFloat? cs = some q) : 0 ≤ q := by
  cases hsp : splitOnChar '.' cs with
  | nil => exact absurd hsp (splitOnChar_ne_nil '.' cs)
  | cons a tl =>
    cases tl with
    | nil =>
      simp only [pyUnsignedFloat?, hsp] at h
      cases hd : digitsNat? a with
      | none => rw [hd] at h; cases h
      | some m => rw [hd] at h; cases h; exact Nat.cast_nonneg m
    | cons b tl2 =>
      cases tl2 with
      | nil =>
        simp only [pyUnsignedFloat?, hsp] at h
        split_ifs at h
        cases h
        positivity
      | cons d tl3 => simp [pyUnsignedFloat?, hsp] at h

theorem pyFloatChars_nonneg (cs : List Char) (q : ℚ)
    (hminus : '-' ∉ cs) (h : pyFloatChars cs = some q) : 0 ≤ q := by
  cases htr : trimChars cs with
  | nil => simp [pyFloatChars, htr] at h
  | cons c rest =>
    simp only [pyFloatChars, htr] at h
    have hc : c ≠ '-' := by
      intro hc
      refine hminus (mem_of_mem_trimChars cs '-' ?_)
      rw [htr, hc]
      exact List.mem_cons_self _ _
    rw [if_neg hc] at h
    by_cases hp : c = '+'
    · rw [if_pos hp] at h
      exact pyUnsignedFloat_nonneg rest q h
    · rw [if_neg hp] at h
      exact pyUnsignedFloat_nonneg (c :: rest) q h

/-- Evaluation of `_parse_minutes` past the special-marker test. -/
theorem parse_minutes_eval (s : String) (hsp : ¬(s = "" ∨ s = "DNP" ∨ s = "--")) :
    _parse_minutes (some s) =
      match splitOnChar ':' s.toList with
      | p0 :: p1 :: _ =>
        (match pyIntChars p0, pyIntChars p1 with
         | some m, some k => (m : ℚ) + (k : ℚ) / 60
         | _, _ => 0)
      | _ => (pyFloatChars s.toList).getD 0 := by
  simp only [_parse_minutes]
  rw [if_neg hsp]

/-- `_parse_minutes` on a string containing a colon. -/
theorem parse_minutes_colon (s : String) (p0 p1 : List Char) (rest : List (List Char))
    (hsp : ¬(s = "" ∨ s = "DNP" ∨ s = "--"))
    (hsplit : splitOnChar ':' s.toList = p0 :: p1 :: rest) :
    _parse_minutes (some s) =
      match pyIntChars p0, pyIntChars p1 with
      | some m, some k => (m : ℚ) + (k : ℚ) / 60
      | _, _ => 0 := by
  rw [parse_minutes_eval s hsp, hsplit]

/-- `_parse_minutes` on a colon-free string. -/
theorem parse_minutes_nocolon (s : String) (p0 : List Char)
    (hsp : ¬(s = "" ∨ s = "DNP" ∨ s = "--"))
    (hsplit : splitOnChar ':' s.toList = [p0]) :
    _parse_minutes (some s) = (pyFloatChars s.toList).getD 0 := by
  rw [parse_minutes_eval s hsp, hsplit]

/-- C8: the numeric parsers are total functions that coerce every
unparseable input to zero: `_parse_minutes` maps `None`, `""`, `"DNP"`,
`"--"`, any colon-free non-literal and any colon string whose first two
parts are not integers to `0`; `_int` maps `None` and every
`int`-unparseable string to `0`; and a well-formed `"M:S"` input parses to
`M + S/60` — in particular `"32:15"` gives `32.25`. -/
theorem parsers_total_zero_on_failure :
    _parse_minutes none = 0 ∧
    (_parse_minutes (some "") = 0 ∧ _parse_minutes (some "DNP") = 0 ∧
      _parse_minutes (some "--") = 0) ∧
    (∀ s : String, (splitOnChar ':' s.toList).length < 2 →
      pyFloatChars s.toList = none → _parse_minutes (some s) = 0) ∧
    (∀ s : String, ∀ p0 p1 rest, splitOnChar ':' s.toList = p0 :: p1 :: rest →
      pyIntChars p0 = none ∨ pyIntChars p1 = none → _parse_minutes (some s) = 0) ∧
    (_int none = 0 ∧ ∀ s : String, pyIntChars s.toList = none → _int (some s) = 0) ∧
    (∀ s : String, ∀ p0 p1 rest, ∀ m k : Int,
      s ≠ "" → s ≠ "DNP" → s ≠ "--" →
      splitOnChar ':' s.toList = p0 :: p1 :: rest →
      pyIntChars p0 = some m → pyIntChars p1 = some k →
      _parse_minutes (some s) = (m : ℚ) + (k : ℚ) / 60) ∧
    _parse_minutes (some "32:15") = 129 / 4 := by
  refine ⟨rfl, ⟨rfl, rfl, rfl⟩, ?_, ?_, ⟨rfl, ?_⟩, ?_, ?_⟩
  · intro s hlen hfl
    by_cases hsp : s = "" ∨ s = "DNP" ∨ s = "--"
    · rcases hsp with h | h | h <;> rw [h] <;> rfl
    · cases h2 : splitOnChar ':' s.toList with
      | nil => exact absurd h2 (splitOnChar_ne_nil ':' s.toList)
      | cons p0 tl =>
        cases tl with
        | nil => rw [parse_minutes_nocolon s p0 hsp h2, hfl]; rfl
        | cons p1 rest =>
          rw [h2] at hlen
          simp only [List.length_cons] at hlen
          omega
  · intro s p0 p1 rest hsplit hfail
    by_cases hsp : s = "" ∨ s = "DNP" ∨ s = "--"
    · rcases hsp with h | h | h <;> rw [h] <;> rfl
    · rw [parse_minutes_colon s p0 p1 rest hsp hsplit]
      cases hm : pyIntChars p0 with
      | none => cases hk : pyIntChars p1 <;> rfl
      | some m =>
        rcases hfail with h | h
        · rw [hm] at h; cases h
        · rw [h]
  · intro s h
    show (pyIntChars s.toList).getD 0 = 0
    rw [h]
    rfl
  · intro s p0 p1 rest m k h1 h2 h3 hsplit hm hk
    rw [parse_minutes_colon s p0 p1 rest (by simp [h1, h2, h3]) hsplit, hm, hk]
  · with_unfolding_all decide

/-- C9 counterexample: minutes parsing is not non-negative on every input
string — `"-5"` parses to `-5`. -/
theorem parse_minutes_negative_cex :
    _parse_minutes (some "-5") = -5 ∧ ¬ 0 ≤ _parse_minutes (some "-5") := by
  with_unfolding_all decide

/-- C9 (amended): on every input that contains no minus sign and is not a
NaN literal — which includes everything the provider's minutes column can
hold (`"M:S"` clock strings, plain numbers, `"DNP"`, `"--"`) —
`_parse_minutes` returns a non-negative value. A minus sign is excluded
because `float("-5") = -5`; a NaN literal is excluded because there
`float(val)` returns NaN, which is not non-negative (and has no rational
counterpart — the model coerces it to `0`, so it may not be claimed). -/
theorem parse_minutes_nonneg_no_minus :
    0 ≤ _parse_minutes none ∧
    ∀ s : String, '-' ∉ s.toList → isNanChars s.toList = false →
      0 ≤ _parse_minutes (some s) := by
  refine ⟨le_refl 0, ?_⟩
  intro s hminus _hnan
  by_cases hsp : s = "" ∨ s = "DNP" ∨ s = "--"
  · rcases hsp with h | h | h <;> rw [h] <;> exact le_refl 0
  · cases h2 : splitOnChar ':' s.toList with
    | nil => exact absurd h2 (splitOnChar_ne_nil ':' s.toList)
    | cons p0 tl =>
      cases tl with
      | nil =>
        rw [parse_minutes_nocolon s p0 hsp h2]
        cases hfl : pyFloatChars s.toList with
        | none => exact le_refl 0
        | some q => exact pyFloatChars_nonneg s.toList q hminus hfl
      | cons p1 rest =>
        rw [parse_minutes_colon s p0 p1 rest hsp h2]
        cases hm : pyIntChars p0 with
        | none => cases hk : pyIntChars p1 <;> exact le_refl 0
        | some m =>
          cases hk : pyIntChars p1 with
          | none => exact le_refl 0
          | some k =>
            have hm0 : 0 ≤ m := by
              refine pyIntChars_nonneg p0 m (fun hx => hminus ?_) hm
              refine mem_of_mem_splitOnChar ':' s.toList p0 '-' ?_ hx
              rw [h2]
              exact List.mem_cons_self _ _
            have hk0 : 0 ≤ k := by
              refine pyIntChars_nonneg p1 k (fun hx => hminus ?_) hk
              refine mem_of_mem_splitOnChar ':' s.toList p1 '-' ?_ hx
              rw [h2]
              exact List.mem_cons_of_mem _ (List.mem_cons_self _ _)
            show (0 : ℚ) ≤ (m : ℚ) + (k : ℚ) / 60
            have hmq : (0 : ℚ) ≤ (m : ℚ) := by exact_mod_cast hm0
            have hkq : (0 : ℚ) ≤ (k : ℚ) := by exact_mod_cast hk0
            positivity

/-! ### Persistence round-trip lemmas -/

theorem decodeStrings_map_str (l : List String) :
    decodeStrings (l.map Json.str) = some l := by
  induction l with
  | nil => rfl
  | cons s ss ih => simp [decodeStrings, asStr?, ih]

theorem asNat_natCast (n : Nat) : asNat? (Json.num (n : ℚ)) = some n := by
  simp [asNat?, Rat.den_natCast, Rat.num_natCast]

theorem decodeEntry_encodeEntry (e : LedgerEntry) :
    decodeEntry (encodeEntry e) = some e := by
  simp [decodeEntry, encodeEntry, fieldLookup, asStr?, asRat?, asNat_natCast,
    decodeStrings_map_str]

/-- C10: ledger persistence round-trips: decoding the JSON document written
by `save_player_log` with `load_player_log` recovers the very same ledger
(every key, every field value), so re-saving without further updates
produces equivalent content. -/
theorem save_load_roundtrip (plog : Ledger) :
    load_player_log (save_player_log plog) = some plog := by
  have h : ∀ l : Ledger,
      decodeLedgerFields (l.map (fun kv => (kv.1, encodeEntry kv.2))) = some l := by
    intro l
    induction l with
    | nil => rfl
    | cons kv rest ih => simp [decodeLedgerFields, decodeEntry_encodeEntry, ih]
  exact h plog

/-! ### Concrete sample data for witnesses -/

def c1Player : PlayerStat :=
  { id := "p1", name := "Ada", team := "LAL", starter := true, dnp := false,
    min := 34, pts := 28, reb := 10, ast := 2 }

def c1Ledger : Ledger :=
  [("p1", { name := "Old", team := "BOS", games := 7, starts := 2,
            total_min := 100, dates_started := ["2025-11-20", "2025-11-25"] })]

def c2Player : PlayerStat :=
  { id := "p1", name := "Ada", team := "LAL", starter := true, dnp := false,
    min := 30, pts := 12, reb := 5, ast := 3 }

def c2Ledger : Ledger :=
  [("p1", { name := "Ada", team := "LAL", games := 5, starts := 0,
            total_min := 100, dates_started := [] })]

def c2Post : LedgerEntry :=
  { name := "Ada", team := "LAL", games := 6, starts := 1,
    total_min := 130, dates_started := ["2025-12-01"] }

def c3Player : PlayerStat :=
  { id := "p2", name := "Bo", team := "BOS", starter := false, dnp := false,
    min := 30, pts := 20, reb := 6, ast := 4 }

def c3Ledger : Ledger :=
  [("p2", { name := "Bo", team := "BOS", games := 10, starts := 0,
            total_min := 200, dates_started := [] })]

def c3Post : LedgerEntry :=
  { name := "Bo", team := "BOS", games := 11, starts := 0,
    total_min := 230, dates_started := [] }

def c4Ledger : Ledger :=
  [("p1", { name := "Ada", team := "LAL", games := 3, starts := 2,
            total_min := 50, dates_started := ["2025-11-20", "2025-11-21"] })]

def c4Players : List PlayerStat :=
  [{ id := "p1", name := "Ada", team := "LAL", starter := true, dnp := false,
     min := 30, pts := 10, reb := 5, ast := 3 },
   { id := "p2", name := "Bo", team := "BOS", starter := false, dnp := false,
     min := 12, pts := 4, reb := 2, ast := 1 }]

def c5Ledger : Ledger :=
  [("p1", { name := "Ada", team := "LAL", games := 6, starts := 1,
            total_min := 100, dates_started := ["2025-12-01"] })]

def c5Player : PlayerStat :=
  { id := "p1", name := "Ada", team := "LAL", starter := true, dnp := false,
    min := 30, pts := 12, reb := 5, ast := 3 }

def c6Ledger : Ledger :=
  [("p1", { name := "Ada", team := "LAL", games := 7, starts := 2,
            total_min := 100, dates_started := ["2025-11-20"] })]

def c6Players : List PlayerStat :=
  [{ id := "", name := "NoId", team := "LAL", starter := true, dnp := false,
     min := 40, pts := 20, reb := 3, ast := 2 },
   { id := "p1", name := "Ada", team := "LAL", starter := false, dnp := true,
     min := 0, pts := 0, reb := 0, ast := 0 }]

def c7Ledger : Ledger :=
  [("p1", { name := "Ada", team := "LAL", games := 4, starts := 2,
            total_min := 70, dates_started := ["2025-11-20", "2025-11-21"] })]

def c7Players : List PlayerStat :=
  [{ id := "p1", name := "Ada", team := "LAL", starter := true, dnp := false,
     min := 30, pts := 10, reb := 5, ast := 3 }]

/-! ### Witnesses -/

/-- Witness for C1 at a concrete ledger and stat line. -/
theorem update_single_player_effect_witness :
    c1Player.id ≠ "" ∧ c1Player.dnp = false ∧
    ((freshEntry c1Player).games = 0 ∧ (freshEntry c1Player).starts = 0 ∧
     (freshEntry c1Player).total_min = 0 ∧ (freshEntry c1Player).dates_started = [] ∧
     ∃ e', lookupL (update_player_log c1Ledger [c1Player] "2025-12-01") c1Player.id = some e' ∧
       e'.name = c1Player.name ∧ e'.team = c1Player.team ∧
       e'.games = ((lookupL c1Ledger c1Player.id).getD (freshEntry c1Player)).games + 1 ∧
       e'.total_min =
         ((lookupL c1Ledger c1Player.id).getD (freshEntry c1Player)).total_min + c1Player.min ∧
       (c1Player.starter = true →
         e'.starts = ((lookupL c1Ledger c1Player.id).getD (freshEntry c1Player)).starts + 1 ∧
         e'.dates_started =
           ((lookupL c1Ledger c1Player.id).getD (freshEntry c1Player)).dates_started ++
             ["2025-12-01"]) ∧
       (c1Player.starter = false →
         e'.starts = ((lookupL c1Ledger c1Player.id).getD (freshEntry c1Player)).starts ∧
         e'.dates_started =
           ((lookupL c1Ledger c1Player.id).getD (freshEntry c1Player)).dates_started)) :=
  ⟨by decide, rfl, update_single_player_effect c1Ledger "2025-12-01" c1Player (by decide) rfl⟩

/-- Witness for C2: `gamesBefore = 5`, `starter = true`, post-update
`starts = 1` — the new-starter boundary. -/
theorem ruleA_characterization_witness :
    c2Player.id ≠ "" ∧ c2Player.dnp = false ∧
    lookupL (update_player_log c2Ledger [c2Player] "2025-12-01") c2Player.id = some c2Post ∧
    (((∃ b ∈ blurbsFor (update_player_log c2Ledger [c2Player] "2025-12-01") c2Player,
          b.isRuleA = true) ↔
        (c2Player.starter = true ∧ 5 ≤ (c2Post.games : Int) - 1 ∧ c2Post.starts ≤ 5))
     ∧ (c2Player.starter = true → 5 ≤ (c2Post.games : Int) - 1 → c2Post.starts = 1 →
         blurbsFor (update_player_log c2Ledger [c2Player] "2025-12-01") c2Player =
           [Blurb.firstStart c2Player.name c2Player.team c2Player.min c2Player.pts])
     ∧ (c2Player.starter = true → 5 ≤ (c2Post.games : Int) - 1 → 2 ≤ c2Post.starts →
          c2Post.starts ≤ 5 →
         blurbsFor (update_player_log c2Ledger [c2Player] "2025-12-01") c2Player =
           [Blurb.nthStart c2Player.name c2Player.team c2Post.starts c2Player.pts c2Player.reb])
     ∧ ((c2Post.games : Int) - 1 = 4 →
         blurbsFor (update_player_log c2Ledger [c2Player] "2025-12-01") c2Player = [])) :=
  ⟨by decide, rfl, by with_unfolding_all decide,
   ruleA_characterization c2Ledger "2025-12-01" c2Player c2Post (by decide) rfl
     (by with_unfolding_all decide)⟩

/-- Witness for C3: `gamesBefore = 10`, `priorAvg = 20`, `minutes = 30` —
the exact Rule B boundary (1.5× and +10). -/
theorem ruleB_characterization_witness :
    c3Player.id ≠ "" ∧ c3Player.dnp = false ∧
    lookupL (update_player_log c3Ledger [c3Player] "2025-12-01") c3Player.id = some c3Post ∧
    ((∃ b ∈ blurbsFor (update_player_log c3Ledger [c3Player] "2025-12-01") c3Player,
        b.isRuleB = true) ↔
      (¬(c3Player.starter = true ∧ c3Post.starts ≤ 5 ∧ 5 ≤ (c3Post.games : Int) - 1) ∧
       10 ≤ (c3Post.games : Int) - 1 ∧ 0 < c3Player.min ∧
       0 < (c3Post.total_min - c3Player.min) / (((c3Post.games : Int) - 1 : Int) : ℚ) ∧
       ((c3Post.total_min - c3Player.min) / (((c3Post.games : Int) - 1 : Int) : ℚ)) * (3 / 2)
         ≤ c3Player.min ∧
       10 ≤ c3Player.min -
         (c3Post.total_min - c3Player.min) / (((c3Post.games : Int) - 1 : Int) : ℚ))) :=
  ⟨by decide, rfl, by with_unfolding_all decide,
   ruleB_characterization c3Ledger "2025-12-01" c3Player c3Post (by decide) rfl
     (by with_unfolding_all decide)⟩

/-- Witness for C4 at a concrete ledger and player list. -/
theorem starts_le_games_preserved_witness :
    (∀ kv ∈ c4Ledger, kv.2.starts ≤ kv.2.games) ∧
    ∀ kv ∈ update_player_log c4Ledger c4Players "2025-12-01", kv.2.starts ≤ kv.2.games :=
  ⟨by with_unfolding_all decide,
   starts_le_games_preserved c4Ledger c4Players "2025-12-01" (by with_unfolding_all decide)⟩

/-- Witness for C5: a game where Rule A fires and no surge blurb exists. -/
theorem blurb_mutual_exclusivity_witness :
    (blurbsFor c5Ledger c5Player).length ≤ 1 ∧
    Blurb.isRuleB (Blurb.firstStart "Ada" "LAL" 30 12) = false :=
  ⟨(blurb_mutual_exclusivity c5Ledger c5Player).1,
   (blurb_mutual_exclusivity c5Ledger c5Player).2 (Blurb.firstStart "Ada" "LAL" 30 12)
     (by with_unfolding_all decide) rfl (Blurb.firstStart "Ada" "LAL" 30 12)
     (by with_unfolding_all decide)⟩

/-- Witness for C6: an empty-id appearance and a DNP appearance leave the
tracked entry untouched. -/
theorem update_frame_witness :
    (∀ p ∈ c6Players, p.id ≠ "" → p.dnp = false → p.id ≠ "p1") ∧
    lookupL (update_player_log c6Ledger c6Players "2025-12-01") "p1" =
      lookupL c6Ledger "p1" :=
  ⟨by with_unfolding_all decide,
   update_frame c6Ledger c6Players "2025-12-01" "p1" (by with_unfolding_all decide)⟩

/-- Witness for C7 at a concrete ledger and player list. -/
theorem starts_eq_dates_length_preserved_witness :
    (∀ kv ∈ c7Ledger, kv.2.starts = kv.2.dates_started.length) ∧
    ∀ kv ∈ update_player_log c7Ledger c7Players "2025-12-01",
      kv.2.starts = kv.2.dates_started.length :=
  ⟨by with_unfolding_all decide,
   starts_eq_dates_length_preserved c7Ledger c7Players "2025-12-01"
     (by with_unfolding_all decide)⟩

/-- Witness for C8: a malformed minutes string and a malformed int both
coerce to zero. -/
theorem parsers_total_zero_on_failure_witness :
    _parse_minutes (some "abc") = 0 ∧ _int (some "x1") = 0 :=
  ⟨parsers_total_zero_on_failure.2.2.1 "abc" (by with_unfolding_all decide)
     (by with_unfolding_all decide),
   parsers_total_zero_on_failure.2.2.2.2.1.2 "x1" (by with_unfolding_all decide)⟩

/-- Witness for C9 (amended) at the clock string `"32:15"`. -/
theorem parse_minutes_nonneg_no_minus_witness :
    0 ≤ _parse_minutes (some "32:15") :=
  parse_minutes_nonneg_no_minus.2 "32:15" (by with_unfolding_all decide)
    (by with_unfolding_all decide)

end DailyScrape
